import Mathlib

/-!
Shallow embedding of the heap allocator in `src/heap.c`.

The heap layers arena growth, a per-heap mutex, and leak tracking on top of
an external segregated-fit engine (tlsf).  The external collaborators — the
tlsf engine (`tlsf_memalign`, `tlsf_add_pool`), the OS reservation primitive
(`VirtualAlloc`), and the backtrace capture (`debug_backtrace`) — are driven
by an oracle per `heap_alloc` call: each oracle field is the result that the
corresponding external call returns during that invocation.  Everything the
C code itself does (growth sizing, registry updates, locking, the leak
report) is embedded directly.

Machine facts used as constants (x64 Windows, the platform `heap.c` targets):
pointers are 8 bytes; `struct backtrace_t { void* address; void* trace[3];
unsigned short frames; backtrace_t* next; size_t size; }` occupies 56 bytes
(offsets 0, 8, 32, 40, 48); `struct arena_t { pool_t pool; arena_t* next; }`
occupies 16 bytes.  Addresses and sizes are modelled as `Nat`.
-/

namespace Heap

/-- Constant `FRAME_MAX` from heap.c line 14: bound on captured backtrace frames. -/
def FRAME_MAX : Nat := 3

/-- Value of `sizeof(backtrace_t)` on x64: 8 + 3*8 + 2 (+6 padding) + 8 + 8 = 56. -/
def sizeof_backtrace_t : Nat := 56

/-- Value of `sizeof(arena_t)` on x64: one `pool_t` (a pointer) plus one pointer. -/
def sizeof_arena_t : Nat := 16

/-- One record of the allocation registry (`backtrace_t` in heap.c), minus
the intrusive `next` pointer, which the Lean list supplies. -/
structure backtrace_t where
  address : Nat
  trace : List Nat
  frames : Nat
  size : Nat
deriving DecidableEq, Repr

/-- One arena (`arena_t` in heap.c): the base address returned by
`VirtualAlloc` and the byte count registered with `tlsf_add_pool`
(the local `arena_size` of `heap_alloc`). -/
structure arena_t where
  base : Nat
  size : Nat
deriving DecidableEq, Repr

/-- The heap (`heap_t` in heap.c).  `arena` and `backtrace` are the two
intrusive singly-linked lists, head first; `mutexLocked` is the state of the
per-heap mutex. -/
structure heap_t where
  grow_increment : Nat
  arena : List arena_t
  backtrace : List backtrace_t
  mutexLocked : Bool
deriving DecidableEq, Repr

/-- Severity levels of `debug_print` used in heap.c. -/
inductive print_level where
  | k_print_warning
  | k_print_error
deriving DecidableEq, Repr

/-- One `debug_print` emission: severity and message. -/
structure log_entry where
  level : print_level
  message : String
deriving DecidableEq, Repr

/-- The message heap.c logs when `VirtualAlloc` fails (lines 47-49, 78-80). -/
def oomLog : log_entry := ⟨print_level.k_print_error, "OUT OF MEMORY!\n"⟩

/-- Results of the external calls made during one `heap_alloc` invocation:
the first `tlsf_memalign`, the `VirtualAlloc` for a new arena, the retried
`tlsf_memalign`, and the raw return addresses `debug_backtrace` captures
(innermost call first). -/
structure alloc_oracle where
  firstAlloc : Option Nat
  osReserve : Option Nat
  retryAlloc : Option Nat
  bt : List Nat
deriving DecidableEq, Repr

/-- Function `heap_create` (heap.c lines 41-60).  `os` is the result of the
`VirtualAlloc` for the heap's own backing region: on failure the function
logs OUT OF MEMORY at error severity and returns `none`; on success the heap
starts with no arenas, an empty registry, and an unlocked mutex. -/
def heap_create (grow_increment : Nat) (os : Option Nat) :
    Option heap_t × List log_entry :=
  match os with
  | none => (none, [oomLog])
  | some _ =>
    (some { grow_increment := grow_increment
            arena := []
            backtrace := []
            mutexLocked := false }, [])

/-- The registry push of `heap_alloc` (lines 93-101): build a `backtrace_t`
behind the block and cons it onto the registry head, then unlock. -/
def finishAlloc (h : heap_t) (address size : Nat) (bt : List Nat) : heap_t :=
  { h with
    backtrace :=
      { address := address
        trace := bt.take FRAME_MAX
        frames := min bt.length FRAME_MAX
        size := size } :: h.backtrace
    mutexLocked := false }

/-- Modulus of `size_t` arithmetic on the x64 target: 2^64. -/
def SIZE_MOD : Nat := 18446744073709551616

/-- The arena size heap.c computes on growth (lines 70-72):
`__max(heap->grow_increment, size * 2) + sizeof(arena_t)`, evaluated in
`size_t`: both the doubling and the final addition wrap modulo 2^64.  This
is also the byte count registered with `tlsf_add_pool` (line 84). -/
def newArenaSize (grow_increment size : Nat) : Nat :=
  (max grow_increment (size * 2 % SIZE_MOD) + sizeof_arena_t) % SIZE_MOD

/-- The byte count `heap_alloc` requests from `tlsf_memalign`
(lines 66 and 89): the caller's size plus the `backtrace_t` trailer. -/
def engineRequest (size : Nat) : Nat :=
  size + sizeof_backtrace_t

/-- Function `heap_alloc` (heap.c lines 62-106).  Returns the address handed to the
caller, the heap state at return, and the `debug_print` emissions.  The
mutex is locked on entry (line 64); every return path unlocks it (line 103)
except the early `return NULL` of the `VirtualAlloc` failure branch
(line 81), which leaves the mutex locked. -/
def heap_alloc (h : heap_t) (size alignment : Nat) (o : alloc_oracle) :
    Option Nat × heap_t × List log_entry :=
  let h1 : heap_t := { h with mutexLocked := true }
  match o.firstAlloc with
  | some address => (some address, finishAlloc h1 address size o.bt, [])
  | none =>
    match o.osReserve with
    | none => (none, h1, [oomLog])
    | some base =>
      let h2 : heap_t :=
        { h1 with
          arena := { base := base
                     size := newArenaSize h1.grow_increment size } :: h1.arena }
      match o.retryAlloc with
      | some address => (some address, finishAlloc h2 address size o.bt, [])
      | none => (none, { h2 with mutexLocked := false }, [])

/-- The registry scan of `heap_free` (lines 113-135): drop the first record
whose address matches, keep the rest, and report whether a match was found
(`tlsf_free` runs exactly when it was). -/
def removeFirstTrace (address : Nat) :
    List backtrace_t → List backtrace_t × Bool
  | [] => ([], false)
  | r :: rest =>
    if r.address = address then (rest, true)
    else
      let p := removeFirstTrace address rest
      (r :: p.1, p.2)

/-- Function `heap_free` (heap.c lines 108-137).  Returns the heap state at return
and the address passed to `tlsf_free`, or `none` when `tlsf_free` was never
invoked.  The mutex is locked on entry and unlocked on every return path. -/
def heap_free (h : heap_t) (address : Nat) : heap_t × Option Nat :=
  let p := removeFirstTrace address h.backtrace
  ({ h with backtrace := p.1, mutexLocked := false },
   if p.2 then some address else none)

/-- Decimal rendering of a pointer for the `%p` directive, kept abstract-free
by fixing one concrete encoding; both the embedded format and the format the
spec asserts use it identically, so every comparison is insensitive to it. -/
def fmtPtr (address : Nat) : String :=
  String.mk (Nat.toDigits 16 address)

/-- Text printf's `%d` prints for a value cast to a 32-bit `int`: the low
32 bits of the value read as a signed two's-complement number (heap.c line
156 casts `trace->size` and `sizeof(backtrace_t)` to `int`, so leaked sizes
of 2^31 bytes and above print as negative numbers). -/
def fmtInt (n : Nat) : String :=
  if n % 4294967296 < 2147483648 then Nat.repr (n % 4294967296)
  else "-" ++ Nat.repr (4294967296 - n % 4294967296)

/-- The leak header line heap.c prints for one surviving record
(line 156): `"Memory leak of size %d bytes of data and %d bytes of overhead
at address %p with callstack:"`, both `%d` arguments cast to `int`. -/
def leakHeaderLine (size address : Nat) : String :=
  "Memory leak of size " ++ fmtInt size ++
  " bytes of data and " ++ fmtInt sizeof_backtrace_t ++
  " bytes of overhead at address " ++ fmtPtr address ++
  " with callstack:\n"

/-- One frame line of the leak report (line 160): `"[%i] %s"` where the
printed index is `trace->frames - i - 1` for the `i`-th captured frame. -/
def frameLine (frames i : Nat) (name : String) : String :=
  "[" ++ Nat.repr (frames - i - 1) ++ "] " ++ name ++ "\n"

/-- The lines `heap_destroy` prints for one surviving record (lines
156-161): the header, then one line per captured frame, walking the capture
order `i = 0 .. frames-1` (innermost call first). -/
def entryLines (r : backtrace_t) (resolve : Nat → String) : List String :=
  leakHeaderLine r.size r.address ::
    (List.range r.frames).map
      (fun i => frameLine r.frames i (resolve (r.trace.getD i 0)))

/-- The leak-report walk of `heap_destroy` (lines 153-164): head-to-tail
over the registry, one entry per surviving record. -/
def leakReport (resolve : Nat → String) : List backtrace_t → List String
  | [] => []
  | r :: rest => entryLines r resolve ++ leakReport resolve rest

/-- The arena-release loop of `heap_destroy` (lines 169-175): walk the
chain head-to-tail, releasing every arena. -/
def releaseArenas : List arena_t → List arena_t
  | [] => []
  | a :: rest => a :: releaseArenas rest

/-- Observable output of `heap_destroy` (heap.c lines 139-180): the printed
leak-report lines and the arenas released back to the OS. -/
structure destroy_out where
  lines : List String
  released : List arena_t

/-- Observable behavior of `heap_destroy`. -/
def heap_destroy (h : heap_t) (resolve : Nat → String) : destroy_out :=
  { lines := leakReport resolve h.backtrace
    released := releaseArenas h.arena }

/-- The (size, address) pair a registry record reports: the data printed in
its leak-header line. -/
def recEntry (r : backtrace_t) : Nat × Nat :=
  (r.size, r.address)

/-- The (size, address) payload of each leak entry `heap_destroy` emits,
in emission order. -/
def destroyEntries (h : heap_t) : List (Nat × Nat) :=
  h.backtrace.map recEntry

/-- The leak-header format the specification asserts, transcribed from its
words for comparison with the embedded `leakHeaderLine`:
"Memory leak of size <S> bytes at address <A> with callstack:". -/
def specLeakHeaderLine (size address : Nat) : String :=
  "Memory leak of size " ++ Nat.repr size ++ " bytes at address " ++
  fmtPtr address ++ " with callstack:"

/-! ### Traces of operations

A trace interleaves `heap_alloc` and `heap_free` calls.  A call proceeds
only when the heap's mutex is free; a heap left locked (the `heap_alloc`
double-failure path) blocks every later call, modelled as the state
freezing. -/

/-- One public operation on a live heap. -/
inductive Op where
  | alloc (size alignment : Nat) (o : alloc_oracle)
  | free (address : Nat)
deriving DecidableEq, Repr

/-- Run one operation: acquire the mutex (possible only when it is free,
otherwise the caller blocks and the state never changes), then execute. -/
def step (h : heap_t) : Op → heap_t
  | Op.alloc size alignment o =>
    if h.mutexLocked then h else (heap_alloc h size alignment o).2.1
  | Op.free address =>
    if h.mutexLocked then h else (heap_free h address).1

/-- Run a whole trace. -/
def runOps (h : heap_t) (ops : List Op) : heap_t :=
  ops.foldl step h

/-- The address an alloc call hands back, as determined by its oracle
(first try, else grow and retry). -/
def allocResult (o : alloc_oracle) : Option Nat :=
  match o.firstAlloc with
  | some a => some a
  | none =>
    match o.osReserve with
    | none => none
    | some _ => o.retryAlloc

/-- An operation that completes without leaving the mutex locked: every
`free`, and every `alloc` whose oracle does not hit the double failure
(first `tlsf_memalign` fails and `VirtualAlloc` fails). -/
def opOk : Op → Bool
  | Op.alloc _ _ o =>
    match o.firstAlloc, o.osReserve with
    | none, none => false
    | _, _ => true
  | Op.free _ => true

/-! ### Ghost account of live allocations

The spec-level view of a trace: the list of (size, address) pairs of the
allocations still live, newest first — `(size, address)` is pushed for each
successful alloc and the first matching pair is dropped for each free. -/

/-- Drop the first pair whose address matches. -/
def removeFirstPair (address : Nat) :
    List (Nat × Nat) → List (Nat × Nat)
  | [] => []
  | p :: rest =>
    if p.2 = address then rest else p :: removeFirstPair address rest

/-- Spec-level effect of one operation on the live-allocation account. -/
def ghostStep (acc : List (Nat × Nat)) : Op → List (Nat × Nat)
  | Op.alloc size _ o =>
    match allocResult o with
    | some a => (size, a) :: acc
    | none => acc
  | Op.free address => removeFirstPair address acc

/-- The live allocations after a trace, newest first. -/
def ghostLive (ops : List Op) : List (Nat × Nat) :=
  ops.foldl ghostStep []

/-- Whether an address is among the live pairs. -/
def containsAddr (address : Nat) (acc : List (Nat × Nat)) : Bool :=
  acc.any (fun p => p.2 = address)

/-- One step of the live/alloc/free account: an alloc counts when its
oracle yields an address; a free counts when its address is live at that
moment (exactly when `heap_free` finds a record and invokes `tlsf_free`). -/
def countsStep (s : List (Nat × Nat) × Nat × Nat) : Op →
    List (Nat × Nat) × Nat × Nat
  | Op.alloc size _ o =>
    match allocResult o with
    | some a => ((size, a) :: s.1, s.2.1 + 1, s.2.2)
    | none => s
  | Op.free address =>
    if containsAddr address s.1 then
      (removeFirstPair address s.1, s.2.1, s.2.2 + 1)
    else s

/-- Live allocations, successful-alloc count, and successful-free count
after a trace. -/
def ghostCounts (ops : List Op) : List (Nat × Nat) × Nat × Nat :=
  ops.foldl countsStep ([], 0, 0)

/-- Bytes committed by `VirtualAlloc` for a chain of arenas: each arena
commits its registered size plus the engine's per-pool overhead `po`
(`tlsf_pool_overhead()`, external; heap_alloc line 74). -/
def reservedOf (po : Nat) (l : List arena_t) : Nat :=
  l.foldr (fun a acc => a.size + po + acc) 0

/-- Total bytes reserved from the OS for a heap's arenas. -/
def totalReserved (po : Nat) (h : heap_t) : Nat :=
  reservedOf po h.arena

end Heap

namespace Heap

/-! ### Helper lemmas (shared) -/

/-- A heap whose mutex is stuck locked never changes again: every later
operation blocks on `mutex_lock` before touching any state. -/
theorem runOps_locked (ops : List Op) :
    ∀ h : heap_t, h.mutexLocked = true → runOps h ops = h := by
  induction ops with
  | nil => intro h _; rfl
  | cons op rest ih =>
    intro h hm
    have hstep : step h op = h := by
      cases op <;> simp [step, hm]
    simpa [runOps, hstep] using ih h hm

/-- Scanning for an absent address leaves the registry untouched and finds
no match. -/
theorem removeFirstTrace_not_mem (address : Nat) :
    ∀ l : List backtrace_t, address ∉ l.map backtrace_t.address →
      removeFirstTrace address l = (l, false) := by
  intro l
  induction l with
  | nil => intro _; rfl
  | cons r rest ih =>
    intro hna
    have h1 : r.address ≠ address := by
      intro h; exact hna (by simp [h.symm])
    have h2 : address ∉ rest.map backtrace_t.address := by
      intro h; exact hna (by simp [h])
    simp [removeFirstTrace, h1, ih h2]

end Heap

namespace Heap

/-! ### C3: size of a freshly grown arena -/

/-- C3 counterexample: heap.c line 71 doubles the request in `size_t`, so
for `size = 2^63` the product `size * 2` wraps to 0 and the grown arena is
registered with only `max(8, 0) + sizeof(arena_t) = 24` bytes — far below
the `2 * size` bytes the claim asserts.  The growth path is exercised end
to end: the first engine allocation fails, the OS reservation succeeds, and
the undersized arena is linked at the head of the chain. -/
theorem grown_arena_overflow_counterexample :
    (heap_alloc { grow_increment := 8, arena := [], backtrace := [], mutexLocked := false }
        9223372036854775808 8
        { firstAlloc := none, osReserve := some 4096, retryAlloc := some 8192, bt := [] }).2.1.arena =
      [{ base := 4096, size := 24 }] ∧
    newArenaSize 8 9223372036854775808 = 24 ∧
    24 < 2 * 9223372036854775808 := by decide

/-- C3 amended: whenever `heap_alloc` cannot satisfy the request from
existing pools (first `tlsf_memalign` fails), the OS reservation succeeds,
and the `size_t` computation `max(grow_increment, size * 2) +
sizeof(arena_t)` does not overflow (it stays below 2^64 — in particular
`size < 2^63`), the new arena linked at the head of the chain is registered
with size `max(grow_increment, 2*size) + sizeof(arena_t)`, hence at least
`max(grow_increment, 2*size)` plus the arena header overhead; in particular
it is at least `2*size` bytes, so a request larger than `grow_increment`
gets an arena of at least twice its size. -/
theorem grown_arena_size_lower_bound (h : heap_t) (size alignment base : Nat)
    (o : alloc_oracle) (hfirst : o.firstAlloc = none)
    (hos : o.osReserve = some base)
    (hnoov : max h.grow_increment (size * 2) + sizeof_arena_t < SIZE_MOD) :
    (heap_alloc h size alignment o).2.1.arena =
      { base := base, size := newArenaSize h.grow_increment size } :: h.arena ∧
    max h.grow_increment (2 * size) + sizeof_arena_t ≤
      newArenaSize h.grow_increment size ∧
    2 * size ≤ newArenaSize h.grow_increment size := by
  have hmul : size * 2 < SIZE_MOD := by
    have := Nat.le_max_right h.grow_increment (size * 2)
    omega
  have hval : newArenaSize h.grow_increment size =
      max h.grow_increment (size * 2) + sizeof_arena_t := by
    simp only [newArenaSize, Nat.mod_eq_of_lt hmul, Nat.mod_eq_of_lt hnoov]
  refine ⟨?_, ?_, ?_⟩
  · cases hr : o.retryAlloc <;>
      simp [heap_alloc, hfirst, hos, hr, finishAlloc]
  · rw [hval]; omega
  · rw [hval]
    have := Nat.le_max_right h.grow_increment (size * 2)
    omega

/-- Witness for `grown_arena_size_lower_bound` at a concrete heap and
oracle (no overflow: `max 1024 6000 + 16 = 6016 < 2^64`). -/
theorem grown_arena_size_lower_bound_witness :
    (heap_alloc { grow_increment := 1024, arena := [], backtrace := [], mutexLocked := false }
        3000 8
        { firstAlloc := none, osReserve := some 65536, retryAlloc := some 70000, bt := [] }).2.1.arena =
      { base := 65536, size := newArenaSize 1024 3000 } :: [] ∧
    max 1024 (2 * 3000) + sizeof_arena_t ≤ newArenaSize 1024 3000 ∧
    2 * 3000 ≤ newArenaSize 1024 3000 :=
  grown_arena_size_lower_bound
    { grow_increment := 1024, arena := [], backtrace := [], mutexLocked := false }
    3000 8 65536
    { firstAlloc := none, osReserve := some 65536, retryAlloc := some 70000, bt := [] }
    rfl rfl (by decide)

/-! ### C4: the retried allocation is not guaranteed to succeed -/

/-- C4 counterexample: with `grow_increment = 8` and a request of 8 bytes,
the first engine allocation failing and the OS reservation succeeding, the
retried allocation can still fail and `heap_alloc` returns the failure
value.  This is not an artifact of a misbehaving engine: the new pool is
registered with `newArenaSize 8 8 = 32` bytes while the retried engine
request is `engineRequest 8 = 64` bytes (the caller's 8 bytes plus the
56-byte `backtrace_t` trailer), so no allocation engine could satisfy the
retry from the new pool. -/
theorem retry_failure_reachable :
    (heap_alloc { grow_increment := 8, arena := [], backtrace := [], mutexLocked := false }
        8 8
        { firstAlloc := none, osReserve := some 4096, retryAlloc := none, bt := [] }).1 = none ∧
    newArenaSize 8 8 < engineRequest 8 := by decide

/-- C4 amended: after a failed first attempt and a successful OS
reservation, `heap_alloc` returns exactly whatever the retried engine
allocation yields — success is not guaranteed by the heap; in particular the
failure branch of the retry is reachable whenever the new pool
(`max(grow_increment, 2*size) + sizeof(arena_t)` bytes) is smaller than the
padded engine request (`size + sizeof(backtrace_t)` bytes). -/
theorem retry_result_passthrough (h : heap_t) (size alignment base : Nat)
    (o : alloc_oracle) (hfirst : o.firstAlloc = none)
    (hos : o.osReserve = some base) :
    (heap_alloc h size alignment o).1 = o.retryAlloc := by
  cases hr : o.retryAlloc <;>
    simp [heap_alloc, hfirst, hos, hr]

/-- Witness for `retry_result_passthrough` at a concrete heap and oracle. -/
theorem retry_result_passthrough_witness :
    (heap_alloc { grow_increment := 8, arena := [], backtrace := [], mutexLocked := false }
        8 8
        { firstAlloc := none, osReserve := some 4096, retryAlloc := none, bt := [] }).1 =
      ({ firstAlloc := none, osReserve := some 4096, retryAlloc := none, bt := [] } : alloc_oracle).retryAlloc :=
  retry_result_passthrough
    { grow_increment := 8, arena := [], backtrace := [], mutexLocked := false }
    8 8 4096
    { firstAlloc := none, osReserve := some 4096, retryAlloc := none, bt := [] }
    rfl rfl

/-! ### C6: OS reservation failure is soft -/

/-- C6: when the OS cannot supply the requested region, both `heap_create`
and `heap_alloc` log an OUT OF MEMORY message at error severity and return
the failure value to the caller; neither path terminates the process (both
are total functions returning normally). -/
theorem os_failure_soft (grow : Nat) (h : heap_t) (size alignment : Nat)
    (o : alloc_oracle) (hfirst : o.firstAlloc = none)
    (hos : o.osReserve = none) :
    heap_create grow none = (none, [oomLog]) ∧
    (heap_alloc h size alignment o).1 = none ∧
    (heap_alloc h size alignment o).2.2 = [oomLog] := by
  refine ⟨rfl, ?_, ?_⟩ <;> simp [heap_alloc, hfirst, hos]

/-- Witness for `os_failure_soft` at a concrete heap and oracle. -/
theorem os_failure_soft_witness :
    heap_create 4096 none = (none, [oomLog]) ∧
    (heap_alloc { grow_increment := 4096, arena := [], backtrace := [], mutexLocked := false }
        64 8
        { firstAlloc := none, osReserve := none, retryAlloc := none, bt := [] }).1 = none ∧
    (heap_alloc { grow_increment := 4096, arena := [], backtrace := [], mutexLocked := false }
        64 8
        { firstAlloc := none, osReserve := none, retryAlloc := none, bt := [] }).2.2 = [oomLog] :=
  os_failure_soft 4096
    { grow_increment := 4096, arena := [], backtrace := [], mutexLocked := false }
    64 8
    { firstAlloc := none, osReserve := none, retryAlloc := none, bt := [] }
    rfl rfl

/-! ### C9: free of an unknown address is a no-op -/

/-- C9: `heap_free` on an address with no matching registry record returns
normally with the heap completely unchanged — registry, arena chain and
mutex as before — and never invokes the engine's `tlsf_free`. -/
theorem free_unknown_address_noop (h : heap_t) (address : Nat)
    (hm : h.mutexLocked = false)
    (hna : address ∉ h.backtrace.map backtrace_t.address) :
    heap_free h address = (h, none) := by
  have hrm := removeFirstTrace_not_mem address h.backtrace hna
  cases h with
  | mk g ar bt m =>
    simp only [heap_free, hrm]
    simp_all

/-- Witness for `free_unknown_address_noop` at a concrete heap. -/
theorem free_unknown_address_noop_witness :
    heap_free
      { grow_increment := 4096, arena := [], backtrace := [{ address := 100, trace := [1, 2], frames := 2, size := 64 }], mutexLocked := false }
      999 =
    ({ grow_increment := 4096, arena := [], backtrace := [{ address := 100, trace := [1, 2], frames := 2, size := 64 }], mutexLocked := false }, none) :=
  free_unknown_address_noop
    { grow_increment := 4096, arena := [], backtrace := [{ address := 100, trace := [1, 2], frames := 2, size := 64 }], mutexLocked := false }
      999 rfl (by decide)

/-! ### C10: double failure leaks the mutex and wedges the heap -/

/-- C10: when the first engine allocation fails and the OS reservation for
the new arena also fails, `heap_alloc` returns the failure value through the
early return that skips `mutex_unlock`: the heap's mutex is left locked, and
every operation of every subsequent trace blocks forever on lock
acquisition, so the heap state never changes again. -/
theorem double_failure_deadlock (h : heap_t) (size alignment : Nat)
    (o : alloc_oracle) (hfirst : o.firstAlloc = none)
    (hos : o.osReserve = none) :
    (heap_alloc h size alignment o).1 = none ∧
    (heap_alloc h size alignment o).2.1.mutexLocked = true ∧
    ∀ ops : List Op,
      runOps (heap_alloc h size alignment o).2.1 ops =
        (heap_alloc h size alignment o).2.1 := by
  refine ⟨?_, ?_, ?_⟩
  · simp [heap_alloc, hfirst, hos]
  · simp [heap_alloc, hfirst, hos]
  · intro ops
    exact runOps_locked ops _ (by simp [heap_alloc, hfirst, hos])

/-- Witness for `double_failure_deadlock` at a concrete heap, oracle and a
nonempty subsequent trace. -/
theorem double_failure_deadlock_witness :
    (heap_alloc { grow_increment := 4096, arena := [], backtrace := [], mutexLocked := false }
        64 8
        { firstAlloc := none, osReserve := none, retryAlloc := none, bt := [] }).1 = none ∧
    (heap_alloc { grow_increment := 4096, arena := [], backtrace := [], mutexLocked := false }
        64 8
        { firstAlloc := none, osReserve := none, retryAlloc := none, bt := [] }).2.1.mutexLocked = true ∧
    runOps (heap_alloc { grow_increment := 4096, arena := [], backtrace := [], mutexLocked := false }
        64 8
        { firstAlloc := none, osReserve := none, retryAlloc := none, bt := [] }).2.1 [Op.free 0] =
      (heap_alloc { grow_increment := 4096, arena := [], backtrace := [], mutexLocked := false }
        64 8
        { firstAlloc := none, osReserve := none, retryAlloc := none, bt := [] }).2.1 := by
  have h := double_failure_deadlock
    { grow_increment := 4096, arena := [], backtrace := [], mutexLocked := false }
    64 8
    { firstAlloc := none, osReserve := none, retryAlloc := none, bt := [] }
    rfl rfl
  exact ⟨h.1, h.2.1, h.2.2 [Op.free 0]⟩

end Heap

namespace Heap

/-! ### C2: format of the leak diagnostic lines -/

/-- C2 counterexample, on a heap destroyed with one surviving two-frame
allocation of 64 bytes at address 4096: (1) the emitted header line is not
the line the specification asserts (`specLeakHeaderLine`) — the code
additionally prints `"... bytes of data and 56 bytes of overhead ..."` —
and the second conjunct pins down what the emitted line actually is;
(2) the first frame line, which is the innermost captured call, is printed
with index `frames - 1 = 1`, not index `0`, refuting the claimed
innermost-to-outermost indexing on a record where the two orders differ;
(3) the size figure itself diverges from the spec's `<S>` for large leaks:
heap.c prints `(int)trace->size` via `%d`, so a leaked allocation of 2^31
bytes prints as `-2147483648`. -/
theorem leak_line_format_counterexample :
    (heap_destroy
      { grow_increment := 4096, arena := [], backtrace := [{ address := 4096, trace := [7, 8], frames := 2, size := 64 }], mutexLocked := false }
      Nat.repr).lines[0]? ≠ some (specLeakHeaderLine 64 4096) ∧
    (heap_destroy
      { grow_increment := 4096, arena := [], backtrace := [{ address := 4096, trace := [7, 8], frames := 2, size := 64 }], mutexLocked := false }
      Nat.repr).lines[0]? = some (leakHeaderLine 64 4096) ∧
    (heap_destroy
      { grow_increment := 4096, arena := [], backtrace := [{ address := 4096, trace := [7, 8], frames := 2, size := 64 }], mutexLocked := false }
      Nat.repr).lines[1]? = some ("[1] " ++ Nat.repr 7 ++ "\n") ∧
    (heap_destroy
      { grow_increment := 4096, arena := [], backtrace := [{ address := 4096, trace := [7, 8], frames := 2, size := 64 }], mutexLocked := false }
      Nat.repr).lines[1]? ≠ some ("[0] " ++ Nat.repr 7 ++ "\n") ∧
    fmtInt 2147483648 = "-2147483648" ∧
    leakHeaderLine 2147483648 4096 ≠ specLeakHeaderLine 2147483648 4096 := by
  decide

/-- C2 amended: for every unreleased allocation, the diagnostic entry
consists of one header line of the exact form
`"Memory leak of size <S'> bytes of data and <O> bytes of overhead at
address <A> with callstack:"` — where S' is the requested size printed as a
32-bit signed `int` (so sizes of 2^31 bytes and above wrap to negative
figures), O is `sizeof(backtrace_t) = 56` printed the same way, and A the
returned address — followed by exactly one line per captured stack frame,
the frames walked in capture order (innermost call first) while the printed
index counts down from `frames - 1` for the innermost frame to `0` for the
outermost. -/
theorem leak_entry_format (r : backtrace_t) (resolve : Nat → String) :
    (entryLines r resolve).length = r.frames + 1 ∧
    (entryLines r resolve)[0]? =
      some ("Memory leak of size " ++ fmtInt r.size ++
        " bytes of data and " ++ fmtInt sizeof_backtrace_t ++
        " bytes of overhead at address " ++ fmtPtr r.address ++
        " with callstack:\n") ∧
    ∀ i, i < r.frames →
      (entryLines r resolve)[i + 1]? =
        some ("[" ++ Nat.repr (r.frames - i - 1) ++ "] " ++
          resolve (r.trace.getD i 0) ++ "\n") := by
  refine ⟨?_, ?_, ?_⟩
  · simp [entryLines]
  · simp [entryLines, leakHeaderLine]
  · intro i hi
    simp [entryLines, frameLine, List.getElem?_map, List.getElem?_range, hi]

/-- Witness for `leak_entry_format`: the innermost frame line of a concrete
two-frame record carries the counted-down index `2 - 0 - 1 = 1`. -/
theorem leak_entry_format_witness :
    (entryLines { address := 4096, trace := [7, 8], frames := 2, size := 64 } Nat.repr)[0 + 1]? =
      some ("[" ++ Nat.repr ((2 : Nat) - 0 - 1) ++ "] " ++
        Nat.repr (([7, 8] : List Nat).getD 0 0) ++ "\n") :=
  (leak_entry_format { address := 4096, trace := [7, 8], frames := 2, size := 64 }
    Nat.repr).2.2 0 (by decide)

end Heap

namespace Heap

/-! ### Registry refinement: the backtrace registry tracks exactly the live
allocations, newest first -/

/-- Dropping the first matching record commutes with projecting each record
to its (size, address) pair, and the found flag agrees with membership of
the address among the projected pairs. -/
theorem removeFirstTrace_map (address : Nat) :
    ∀ l : List backtrace_t,
      (removeFirstTrace address l).1.map recEntry =
        removeFirstPair address (l.map recEntry) ∧
      (removeFirstTrace address l).2 = containsAddr address (l.map recEntry) := by
  intro l
  induction l with
  | nil => simp [removeFirstTrace, removeFirstPair, containsAddr]
  | cons r rest ih =>
    by_cases hr : r.address = address
    · simp [removeFirstTrace, removeFirstPair, containsAddr, recEntry, hr]
    · simp [removeFirstTrace, removeFirstPair, containsAddr, recEntry, hr,
        ih.1, ih.2]

/-- Running a trace whose operations all complete keeps the mutex free and
keeps the registry's (size, address) projection equal to the ghost
live-allocation account. -/
theorem run_refines (ops : List Op) :
    ∀ (h : heap_t) (acc : List (Nat × Nat)),
      h.mutexLocked = false → h.backtrace.map recEntry = acc →
      ops.all opOk = true →
      (runOps h ops).mutexLocked = false ∧
      (runOps h ops).backtrace.map recEntry = ops.foldl ghostStep acc := by
  induction ops with
  | nil => intro h acc hm hb _; exact ⟨hm, hb⟩
  | cons op rest ih =>
    intro h acc hm hb hall
    rw [List.all_cons, Bool.and_eq_true] at hall
    have hrun : runOps h (op :: rest) = runOps (step h op) rest := rfl
    cases op with
    | alloc size alignment o =>
      cases hfa : o.firstAlloc with
      | some a =>
        have hstep : step h (Op.alloc size alignment o) =
            finishAlloc { h with mutexLocked := true } a size o.bt := by
          simp [step, hm, heap_alloc, hfa]
        have hghost : ghostStep acc (Op.alloc size alignment o) =
            (size, a) :: acc := by
          simp [ghostStep, allocResult, hfa]
        rw [hrun, hstep, List.foldl_cons, hghost]
        exact ih _ _ rfl (by simp [finishAlloc, recEntry, hb]) hall.2
      | none =>
        cases hos : o.osReserve with
        | none =>
          exfalso
          have := hall.1
          simp [opOk, hfa, hos] at this
        | some base =>
          cases hra : o.retryAlloc with
          | some a =>
            have hstep : step h (Op.alloc size alignment o) =
                finishAlloc
                  { h with mutexLocked := true, arena := { base := base, size := newArenaSize h.grow_increment size } :: h.arena }
                  a size o.bt := by
              simp [step, hm, heap_alloc, hfa, hos, hra]
            have hghost : ghostStep acc (Op.alloc size alignment o) =
                (size, a) :: acc := by
              simp [ghostStep, allocResult, hfa, hos, hra]
            rw [hrun, hstep, List.foldl_cons, hghost]
            exact ih _ _ rfl (by simp [finishAlloc, recEntry, hb]) hall.2
          | none =>
            have hstep : step h (Op.alloc size alignment o) =
                { h with mutexLocked := false, arena := { base := base, size := newArenaSize h.grow_increment size } :: h.arena } := by
              simp [step, hm, heap_alloc, hfa, hos, hra]
            have hghost : ghostStep acc (Op.alloc size alignment o) = acc := by
              simp [ghostStep, allocResult, hfa, hos, hra]
            rw [hrun, hstep, List.foldl_cons, hghost]
            exact ih _ _ rfl (by simpa using hb) hall.2
    | free address =>
      have hstep : step h (Op.free address) =
          { h with
            backtrace := (removeFirstTrace address h.backtrace).1,
            mutexLocked := false } := by
        simp [step, hm, heap_free]
      have hghost : ghostStep acc (Op.free address) =
          removeFirstPair address acc := rfl
      rw [hrun, hstep, List.foldl_cons, hghost]
      refine ih _ _ rfl ?_ hall.2
      simpa using (removeFirstTrace_map address h.backtrace).1.trans
        (by rw [hb])

end Heap

namespace Heap

/-! ### C1: the leak report lists exactly the live allocations, LIFO -/

/-- C1: for a heap built by `heap_create` and driven by any trace of
allocate/free calls that all complete, `heap_destroy` emits exactly one
leak entry per surviving (unfreed) allocation — so exactly N entries when N
allocations are unfreed — each entry reporting the size passed to and the
address returned by its `heap_alloc` call, and the entries ordered
most-recent-allocation-first (the LIFO order of the registry). -/
theorem destroy_reports_live_lifo (grow base : Nat) (h0 : heap_t)
    (ops : List Op)
    (hc : heap_create grow (some base) = (some h0, []))
    (hwf : ops.all opOk = true) :
    destroyEntries (runOps h0 ops) = ghostLive ops := by
  have hc1 : h0 = { grow_increment := grow, arena := [], backtrace := [], mutexLocked := false } := by
    simp [heap_create, Prod.ext_iff] at hc
    exact hc.symm
  subst hc1
  simpa [destroyEntries, ghostLive] using
    (run_refines ops
      { grow_increment := grow, arena := [], backtrace := [], mutexLocked := false }
      [] rfl rfl hwf).2

/-- Witness for `destroy_reports_live_lifo`: three allocations (one forcing
arena growth) and one free; the report lists the two survivors newest
first. -/
theorem destroy_reports_live_lifo_witness :
    destroyEntries (runOps
      { grow_increment := 1048576, arena := [], backtrace := [], mutexLocked := false }
      [Op.alloc 64 8 { firstAlloc := some 100, osReserve := none, retryAlloc := none, bt := [11, 12] },
       Op.alloc 32 8 { firstAlloc := some 200, osReserve := none, retryAlloc := none, bt := [] },
       Op.alloc 16 8 { firstAlloc := none, osReserve := some 5000, retryAlloc := some 300, bt := [9] },
       Op.free 200]) =
    ghostLive
      [Op.alloc 64 8 { firstAlloc := some 100, osReserve := none, retryAlloc := none, bt := [11, 12] },
       Op.alloc 32 8 { firstAlloc := some 200, osReserve := none, retryAlloc := none, bt := [] },
       Op.alloc 16 8 { firstAlloc := none, osReserve := some 5000, retryAlloc := some 300, bt := [9] },
       Op.free 200] :=
  destroy_reports_live_lifo 1048576 77
    { grow_increment := 1048576, arena := [], backtrace := [], mutexLocked := false }
    [Op.alloc 64 8 { firstAlloc := some 100, osReserve := none, retryAlloc := none, bt := [11, 12] },
     Op.alloc 32 8 { firstAlloc := some 200, osReserve := none, retryAlloc := none, bt := [] },
     Op.alloc 16 8 { firstAlloc := none, osReserve := some 5000, retryAlloc := some 300, bt := [9] },
     Op.free 200]
    rfl (by decide)

/-! ### C5: registry length = successful allocates − successful frees -/

/-- A free of an address not among the live pairs changes nothing. -/
theorem removeFirstPair_not_contains (address : Nat) :
    ∀ acc : List (Nat × Nat), containsAddr address acc = false →
      removeFirstPair address acc = acc := by
  intro acc
  induction acc with
  | nil => intro _; rfl
  | cons p rest ih =>
    intro hc
    simp [containsAddr] at hc
    simp [removeFirstPair, hc.1, ih (by simp [containsAddr]; exact hc.2)]

/-- A free of a live address removes exactly one pair. -/
theorem removeFirstPair_length (address : Nat) :
    ∀ acc : List (Nat × Nat), containsAddr address acc = true →
      (removeFirstPair address acc).length + 1 = acc.length := by
  intro acc
  induction acc with
  | nil => intro hc; simp [containsAddr] at hc
  | cons p rest ih =>
    intro hc
    by_cases hp : p.2 = address
    · simp [removeFirstPair, hp]
    · have hrest : containsAddr address rest = true := by
        simp [containsAddr] at hc ⊢
        tauto
      simp [removeFirstPair, hp, ← ih hrest]

/-- The live component of the counting fold agrees with the plain ghost
account. -/
theorem countsStep_live (ops : List Op) :
    ∀ (acc : List (Nat × Nat)) (a f : Nat),
      (ops.foldl countsStep (acc, a, f)).1 = ops.foldl ghostStep acc := by
  induction ops with
  | nil => intro acc a f; rfl
  | cons op rest ih =>
    intro acc a f
    cases op with
    | alloc size alignment o =>
      cases har : allocResult o with
      | some x => simp [countsStep, ghostStep, har, List.foldl_cons, ih]
      | none => simp [countsStep, ghostStep, har, List.foldl_cons, ih]
    | free address =>
      by_cases hcont : containsAddr address acc = true
      · simp [countsStep, ghostStep, hcont, List.foldl_cons, ih]
      · rw [Bool.not_eq_true] at hcont
        simp [countsStep, ghostStep, hcont, List.foldl_cons, ih,
          removeFirstPair_not_contains address acc hcont]

/-- Balance of the counting fold: live pairs plus successful frees equals
successful allocates (relative to the starting accumulator). -/
theorem countsStep_balance (ops : List Op) :
    ∀ (acc : List (Nat × Nat)) (a f : Nat),
      (ops.foldl countsStep (acc, a, f)).1.length +
        (ops.foldl countsStep (acc, a, f)).2.2 + a =
      acc.length + (ops.foldl countsStep (acc, a, f)).2.1 + f := by
  induction ops with
  | nil => intro acc a f; simp; omega
  | cons op rest ih =>
    intro acc a f
    cases op with
    | alloc size alignment o =>
      cases har : allocResult o with
      | some x =>
        have hih := ih ((size, x) :: acc) (a + 1) f
        simp only [List.foldl_cons, countsStep, har] at hih ⊢
        simp at hih ⊢
        omega
      | none =>
        simp only [List.foldl_cons, countsStep, har]
        exact ih acc a f
    | free address =>
      by_cases hcont : containsAddr address acc = true
      · have hlen := removeFirstPair_length address acc hcont
        have hih := ih (removeFirstPair address acc) a (f + 1)
        simp only [List.foldl_cons, countsStep, hcont, if_true] at hih ⊢
        omega
      · rw [Bool.not_eq_true] at hcont
        simp only [List.foldl_cons, countsStep, hcont, Bool.false_eq_true,
          if_false]
        exact ih acc a f

/-- C5: for a heap built by `heap_create` and any trace of allocate/free
calls that all complete, the registry length after the trace equals the
number of successful allocates minus the number of successful frees: each
successful allocate inserts exactly one record and each successful free
(one whose address is live) removes exactly one.  Since the trace is
arbitrary, this holds at every point of every operation sequence. -/
theorem registry_count_balance (grow base : Nat) (h0 : heap_t)
    (ops : List Op)
    (hc : heap_create grow (some base) = (some h0, []))
    (hwf : ops.all opOk = true) :
    (runOps h0 ops).backtrace.length + (ghostCounts ops).2.2 =
      (ghostCounts ops).2.1 := by
  have hc1 : h0 = { grow_increment := grow, arena := [], backtrace := [], mutexLocked := false } := by
    simp [heap_create, Prod.ext_iff] at hc
    exact hc.symm
  subst hc1
  have href := (run_refines ops
    { grow_increment := grow, arena := [], backtrace := [], mutexLocked := false }
    [] rfl rfl hwf).2
  have hlen : (runOps { grow_increment := grow, arena := [], backtrace := [], mutexLocked := false } ops).backtrace.length =
      (ops.foldl ghostStep []).length := by
    rw [← href, List.length_map]
  have hlive := countsStep_live ops [] 0 0
  have hlive_len : (ops.foldl countsStep ([], 0, 0)).1.length =
      (ops.foldl ghostStep []).length := by rw [hlive]
  have hbal := countsStep_balance ops [] 0 0
  simp only [List.length_nil] at hbal
  simp only [ghostCounts]
  rw [hlen, ← hlive_len]
  omega

/-- Witness for `registry_count_balance`: two successful allocations, one
failed allocation, one successful free and one no-op free leave one record
and counts 2 and 1. -/
theorem registry_count_balance_witness :
    (runOps
      { grow_increment := 256, arena := [], backtrace := [], mutexLocked := false }
      [Op.alloc 64 8 { firstAlloc := some 100, osReserve := none, retryAlloc := none, bt := [1] },
       Op.alloc 512 8 { firstAlloc := none, osReserve := some 9000, retryAlloc := none, bt := [] },
       Op.alloc 32 16 { firstAlloc := none, osReserve := some 12000, retryAlloc := some 210, bt := [2, 3] },
       Op.free 100,
       Op.free 100]).backtrace.length +
      (ghostCounts
        [Op.alloc 64 8 { firstAlloc := some 100, osReserve := none, retryAlloc := none, bt := [1] },
         Op.alloc 512 8 { firstAlloc := none, osReserve := some 9000, retryAlloc := none, bt := [] },
         Op.alloc 32 16 { firstAlloc := none, osReserve := some 12000, retryAlloc := some 210, bt := [2, 3] },
         Op.free 100,
         Op.free 100]).2.2 =
    (ghostCounts
      [Op.alloc 64 8 { firstAlloc := some 100, osReserve := none, retryAlloc := none, bt := [1] },
       Op.alloc 512 8 { firstAlloc := none, osReserve := some 9000, retryAlloc := none, bt := [] },
       Op.alloc 32 16 { firstAlloc := none, osReserve := some 12000, retryAlloc := some 210, bt := [2, 3] },
       Op.free 100,
       Op.free 100]).2.1 :=
  registry_count_balance 256 55
    { grow_increment := 256, arena := [], backtrace := [], mutexLocked := false }
    [Op.alloc 64 8 { firstAlloc := some 100, osReserve := none, retryAlloc := none, bt := [1] },
     Op.alloc 512 8 { firstAlloc := none, osReserve := some 9000, retryAlloc := none, bt := [] },
     Op.alloc 32 16 { firstAlloc := none, osReserve := some 12000, retryAlloc := some 210, bt := [2, 3] },
     Op.free 100,
     Op.free 100]
    rfl (by decide)

end Heap

namespace Heap

/-! ### C7: OS reservation is monotone; arenas released only at destroy -/

/-- One operation never removes an arena: the chain before the step is a
suffix of the chain after it (`heap_free` leaves it untouched; `heap_alloc`
at most links one new arena at the head). -/
theorem step_arena_suffix (h : heap_t) (op : Op) :
    h.arena.IsSuffix (step h op).arena := by
  cases op with
  | alloc size alignment o =>
    by_cases hm : h.mutexLocked = true
    · simp [step, hm]
    · rw [Bool.not_eq_true] at hm
      cases hfa : o.firstAlloc with
      | some a => simp [step, hm, heap_alloc, hfa, finishAlloc]
      | none =>
        cases hos : o.osReserve with
        | none => simp [step, hm, heap_alloc, hfa, hos]
        | some base =>
          cases hra : o.retryAlloc with
          | some a =>
            simp only [step, hm, Bool.false_eq_true, if_false, heap_alloc,
              hfa, hos, hra, finishAlloc]
            exact List.suffix_cons _ _
          | none =>
            simp only [step, hm, Bool.false_eq_true, if_false, heap_alloc,
              hfa, hos, hra]
            exact List.suffix_cons _ _
  | free address =>
    by_cases hm : h.mutexLocked = true
    · simp [step, hm]
    · rw [Bool.not_eq_true] at hm
      simp [step, hm, heap_free]

/-- Along any trace the arena chain only grows at the head. -/
theorem runOps_arena_suffix (ops : List Op) :
    ∀ h : heap_t, h.arena.IsSuffix (runOps h ops).arena := by
  induction ops with
  | nil => intro h; exact List.suffix_refl _
  | cons op rest ih =>
    intro h
    exact (step_arena_suffix h op).trans (ih (step h op))

/-- Committed bytes add up over a split of the chain. -/
theorem reservedOf_append (po : Nat) (t l : List arena_t) :
    reservedOf po (t ++ l) = reservedOf po t + reservedOf po l := by
  induction t with
  | nil => simp [reservedOf]
  | cons a rest ih => simp [reservedOf, List.foldr_cons] at ih ⊢; omega

/-- The release loop of `heap_destroy` walks the entire chain: every arena
is released, none is skipped. -/
theorem releaseArenas_id : ∀ l : List arena_t, releaseArenas l = l := by
  intro l
  induction l with
  | nil => rfl
  | cons a rest ih => simp [releaseArenas, ih]

/-- C7: for any sequence of allocate/free calls, the total bytes reserved
from the OS for arenas is monotonically non-decreasing — the arena chain
only ever grows (in particular `heap_free` never releases an arena) — and
arenas are released only by `heap_destroy`, which releases all of them. -/
theorem os_reservation_monotone (h : heap_t) (ops : List Op) (po : Nat)
    (resolve : Nat → String) :
    h.arena.IsSuffix (runOps h ops).arena ∧
    totalReserved po h ≤ totalReserved po (runOps h ops) ∧
    (heap_destroy (runOps h ops) resolve).released = (runOps h ops).arena := by
  refine ⟨runOps_arena_suffix ops h, ?_, ?_⟩
  · obtain ⟨t, ht⟩ := runOps_arena_suffix ops h
    simp only [totalReserved, ← ht, reservedOf_append]
    omega
  · exact releaseArenas_id _

/-! ### C8: successful allocations are aligned -/

/-- C8: `heap_alloc` returns the engine's address unchanged, so under the
engine's aligned-allocation contract (every address `tlsf_memalign` returns
for alignment `alignment` is a multiple of `alignment`), every successful
`heap_alloc` returns an address that is a multiple of the requested
alignment. -/
theorem alloc_result_aligned (h : heap_t) (size alignment a : Nat)
    (o : alloc_oracle)
    (hfa : ∀ x, o.firstAlloc = some x → alignment ∣ x)
    (hra : ∀ x, o.retryAlloc = some x → alignment ∣ x)
    (hres : (heap_alloc h size alignment o).1 = some a) :
    alignment ∣ a := by
  cases hf : o.firstAlloc with
  | some x =>
    have hx : x = a := by
      simpa [heap_alloc, hf] using hres
    exact hx ▸ hfa x hf
  | none =>
    cases hos : o.osReserve with
    | none => simp [heap_alloc, hf, hos] at hres
    | some base =>
      cases hr : o.retryAlloc with
      | none => simp [heap_alloc, hf, hos, hr] at hres
      | some x =>
        have hx : x = a := by
          simpa [heap_alloc, hf, hos, hr] using hres
        exact hx ▸ hra x hr

/-- Witness for `alloc_result_aligned`: an 8-aligned engine result stays
8-aligned through `heap_alloc`. -/
theorem alloc_result_aligned_witness : (8 : Nat) ∣ 64 :=
  alloc_result_aligned
    { grow_increment := 4096, arena := [], backtrace := [], mutexLocked := false }
    24 8 64
    { firstAlloc := some 64, osReserve := none, retryAlloc := none, bt := [] }
    (by intro x hx; simp at hx; omega)
    (by intro x hx; simp at hx)
    rfl

end Heap
